import Mathlib

/-!
# Customer-portal backend: shallow embedding and verification

This file embeds the behaviour of the Express.js customer-portal backend
(`src/backend/src/routes/auth.js`, `src/backend/src/routes/messages.js`,
`src/backend/src/routes/bookings.js`, `src/backend/src/services/servicem8.js`
and the auth middleware) in Lean 4 and proves properties of it.

Strings of the JavaScript source are modelled as `List Char` (`Str`), so that
the character-level operations of the source (trim, toLowerCase, regex strip,
`split`) are fully inspectable.  File-backed state (the message log) is passed
explicitly: every handler takes the current log and returns the new one.
-/

set_option autoImplicit false

namespace Portal

/-- JavaScript strings, modelled as lists of characters. -/
abbrev Str := List Char

/-- Characters matched by the JavaScript `\s` class (whitespace). -/
def isJsWhitespace (c : Char) : Bool :=
  c = ' ' || c = '\t' || c = '\n' || c = '\r'

/-- `String.prototype.toLowerCase`, character-wise. -/
def toLowerStr (s : Str) : Str := s.map Char.toLower

/-- `String.prototype.trim`: strip leading and trailing whitespace. -/
def trimStr (s : Str) : Str :=
  ((s.dropWhile (isJsWhitespace ·)).reverse.dropWhile (isJsWhitespace ·)).reverse

/-- `phone.replace(/[\s\-\(\)]/g, '')` from `auth.js`: strip whitespace,
dashes and parentheses. -/
def normalizePhone (p : Str) : Str :=
  p.filter (fun c => !(isJsWhitespace c || c = '-' || c = '(' || c = ')'))

/-- `email.toLowerCase().trim()` from `auth.js`. -/
def normalizeEmail (e : Str) : Str := trimStr (toLowerStr e)

/-! ## `String.prototype.split` on a single-character separator -/

/-- JavaScript `s.split(sep)` for a one-character separator: splits at every
occurrence, keeping empty segments (`"".split(' ') = [""]`). -/
def splitSep (sep : Char) : Str → List Str
  | [] => [[]]
  | c :: cs =>
    if c = sep then [] :: splitSep sep cs
    else
      match splitSep sep cs with
      | [] => [[c]]
      | s :: ss => (c :: s) :: ss

/-- Join a list of segments with a one-character separator (inverse of
`splitSep` on its image). -/
def joinSep (sep : Char) : List Str → Str
  | [] => []
  | [s] => s
  | s :: ss => s ++ sep :: joinSep sep ss

theorem splitSep_ne_nil (sep : Char) : ∀ s : Str, splitSep sep s ≠ []
  | [] => by simp [splitSep]
  | c :: cs => by
    simp only [splitSep]
    split
    · simp
    · split
      · simp
      · simp

theorem joinSep_cons_of_ne_nil (sep : Char) (s : Str) {ss : List Str}
    (h : ss ≠ []) : joinSep sep (s :: ss) = s ++ sep :: joinSep sep ss := by
  cases ss with
  | nil => exact absurd rfl h
  | cons t ts => rfl

/-- Splitting is a left inverse of joining nothing: `joinSep ∘ splitSep = id`. -/
theorem joinSep_splitSep (sep : Char) : ∀ s : Str, joinSep sep (splitSep sep s) = s
  | [] => rfl
  | c :: cs => by
    simp only [splitSep]
    by_cases hc : c = sep
    · rw [if_pos hc, joinSep_cons_of_ne_nil sep [] (splitSep_ne_nil sep cs),
        joinSep_splitSep sep cs, hc]
      rfl
    · rw [if_neg hc]
      cases hsp : splitSep sep cs with
      | nil => exact absurd hsp (splitSep_ne_nil sep cs)
      | cons s ss =>
        cases ss with
        | nil =>
          have := joinSep_splitSep sep cs
          rw [hsp] at this
          simpa [joinSep] using congrArg (c :: ·) this
        | cons t ts =>
          have := joinSep_splitSep sep cs
          rw [hsp, joinSep_cons_of_ne_nil sep s (by simp)] at this
          rw [joinSep_cons_of_ne_nil sep (c :: s) (by simp)]
          simpa using congrArg (c :: ·) this

/-- Every segment produced by `splitSep` is free of the separator. -/
theorem splitSep_sep_not_mem (sep : Char) :
    ∀ s : Str, ∀ t ∈ splitSep sep s, sep ∉ t
  | [], t, ht => by
    simp [splitSep] at ht
    simp [ht]
  | c :: cs, t, ht => by
    simp only [splitSep] at ht
    by_cases hc : c = sep
    · rw [if_pos hc] at ht
      rcases List.mem_cons.1 ht with h | h
      · simp [h]
      · exact splitSep_sep_not_mem sep cs t h
    · rw [if_neg hc] at ht
      cases hsp : splitSep sep cs with
      | nil => exact absurd hsp (splitSep_ne_nil sep cs)
      | cons s ss =>
        rw [hsp] at ht
        rcases List.mem_cons.1 ht with h | h
        · subst h
          intro hmem
          rcases List.mem_cons.1 hmem with h | h
          · exact hc h.symm
          · exact splitSep_sep_not_mem sep cs s (hsp ▸ List.mem_cons_self s ss) h
        · exact splitSep_sep_not_mem sep cs t (hsp ▸ List.mem_cons_of_mem s h)

/-- Splitting a separator-free string yields the single segment. -/
theorem splitSep_of_not_mem {sep : Char} : ∀ {s : Str}, sep ∉ s → splitSep sep s = [s]
  | [], _ => rfl
  | c :: cs, h => by
    have hc : ¬c = sep := fun he => h (he ▸ List.mem_cons_self c cs)
    have hcs : sep ∉ cs := fun hm => h (List.mem_cons_of_mem c hm)
    simp only [splitSep, if_neg hc, splitSep_of_not_mem hcs]

/-- Splitting past a separator-free prefix. -/
theorem splitSep_append {sep : Char} :
    ∀ {s : Str}, sep ∉ s → ∀ t : Str, splitSep sep (s ++ sep :: t) = s :: splitSep sep t
  | [], _, t => by simp [splitSep]
  | c :: cs, h, t => by
    have hc : ¬c = sep := fun he => h (he ▸ List.mem_cons_self c cs)
    have hcs : sep ∉ cs := fun hm => h (List.mem_cons_of_mem c hm)
    have hstep : splitSep sep ((c :: cs) ++ sep :: t)
        = splitSep sep (c :: (cs ++ sep :: t)) := rfl
    rw [hstep]
    simp only [splitSep, if_neg hc]
    rw [splitSep_append hcs t]

/-- Splitting inverts joining when every segment is separator-free. -/
theorem splitSep_joinSep {sep : Char} :
    ∀ {ss : List Str}, ss ≠ [] → (∀ s ∈ ss, sep ∉ s) →
      splitSep sep (joinSep sep ss) = ss
  | [], h, _ => absurd rfl h
  | [s], _, hfree => by
    simp only [joinSep]
    exact splitSep_of_not_mem (hfree s (List.mem_singleton.2 rfl))
  | s :: t :: ts, _, hfree => by
    rw [joinSep_cons_of_ne_nil sep s (by simp),
      splitSep_append (hfree s (List.mem_cons_self s (t :: ts))),
      splitSep_joinSep (by simp) (fun u hu => hfree u (List.mem_cons_of_mem s hu))]

/-- Joining keeps all characters of the segments plus the separator. -/
theorem mem_joinSep {sep c : Char} :
    ∀ {ss : List Str}, c ∈ joinSep sep ss → c = sep ∨ ∃ s ∈ ss, c ∈ s
  | [], h => by simp [joinSep] at h
  | [s], h => Or.inr ⟨s, List.mem_singleton.2 rfl, h⟩
  | s :: t :: ts, h => by
    rw [joinSep_cons_of_ne_nil sep s (by simp)] at h
    rcases List.mem_append.1 h with h | h
    · exact Or.inr ⟨s, List.mem_cons_self s (t :: ts), h⟩
    · rcases List.mem_cons.1 h with h | h
      · exact Or.inl h
      · rcases mem_joinSep h with h | ⟨u, hu, hc⟩
        · exact Or.inl h
        · exact Or.inr ⟨u, List.mem_cons_of_mem s hu, hc⟩

/-! ## Session tokens (`jsonwebtoken` usage in `auth.js` / auth middleware) -/

/-- The claims `auth.js` embeds in a session token (`tokenPayload`). -/
structure TokenPayload where
  customerId : Str
  email : Str
  firstName : Str
  lastName : Str
deriving DecidableEq, Repr

/-- Outcomes of `jwt.verify`: `TokenExpiredError` vs. any other failure. -/
inductive JwtError
  | expired
  | invalid
deriving DecidableEq, Repr

/-- Modelled from the spec: the signature a token carries, determined by the
signing secret and the token body ("a signed ... session token").  Kept free
of the separators `'/'` and `' '` so that tokens survive header parsing. -/
def macSig (secret body : Str) : Str :=
  (secret ++ '|' :: body).filter (fun c => !(c = '/' || c = ' '))

/-- The six body fields of a token: the four claims plus issue and expiry
instants (in seconds, encoded in unary so parsing stays elementary). -/
def jwtBodyFields (p : TokenPayload) (iat expSec : Nat) : List Str :=
  [p.customerId, p.email, p.firstName, p.lastName,
    List.replicate iat 'i', List.replicate expSec 'e']

/-- Modelled from the spec: `jwt.sign(payload, secret, {expiresIn})` — the
`jsonwebtoken` library is not part of the repository.  Produces an opaque
signed blob encoding the claims, `issuedAt` and `expiresAt`. -/
def signJwt (secret : Str) (p : TokenPayload) (iat expSec : Nat) : Str :=
  let body := joinSep '/' (jwtBodyFields p iat expSec)
  body ++ '/' :: macSig secret body

/-- Modelled from the spec: `jwt.verify(token, secret)` — "verification is
purely a signature+expiry check"; expired means the current instant is at or
after `expiresAt`. -/
def verifyJwt (secret : Str) (now : Nat) (token : Str) :
    Except JwtError TokenPayload :=
  match splitSep '/' token with
  | [cid, em, fn, ln, _iatF, expF, sig] =>
    let body := joinSep '/' [cid, em, fn, ln, _iatF, expF]
    if sig = macSig secret body then
      if expF.length ≤ now then .error .expired
      else .ok ⟨cid, em, fn, ln⟩
    else .error .invalid
  | _ => .error .invalid

/-- An HTTP error response `{status, error, message}`. -/
structure ErrorResponse where
  status : Nat
  error : Str
  message : Str
deriving DecidableEq, Repr

/-- The literal word `Bearer` expected as the first header part. -/
def bearerWord : Str := "Bearer".toList

/-- The well-formed Authorization header carrying a token. -/
def bearerHeader (t : Str) : Str := bearerWord ++ ' ' :: t

/-- A 401 response with the given detail message. -/
def unauthorizedResp (msg : String) : ErrorResponse :=
  ⟨401, "Unauthorized".toList, msg.toList⟩

/-- The `verifyToken` middleware (auth middleware source): checks presence of
the Authorization header, its `Bearer <token>` shape (split on `' '`, exactly
two parts, first equal to `Bearer`), then delegates to `jwt.verify`,
translating `TokenExpiredError` and other failures to 401 responses. -/
def verifyToken (secret : Str) (now : Nat) (authHeader : Option Str) :
    Except ErrorResponse TokenPayload :=
  match authHeader with
  | none => .error (unauthorizedResp "No authorization token provided")
  | some h =>
    if (splitSep ' ' h).length = 2 ∧ (splitSep ' ' h).head? = some bearerWord
    then
      match verifyJwt secret now ((splitSep ' ' h).getD 1 []) with
      | .ok decoded => .ok decoded
      | .error .expired => .error (unauthorizedResp "Token has expired")
      | .error .invalid => .error (unauthorizedResp "Invalid token")
    else
      .error (unauthorizedResp "Invalid authorization header format")

/-- The claim fields avoid the two separator characters; true of every
customer in the credential store. -/
def TokenFieldsOk (p : TokenPayload) : Prop :=
  ('/' ∉ p.customerId ∧ ' ' ∉ p.customerId) ∧
  ('/' ∉ p.email ∧ ' ' ∉ p.email) ∧
  ('/' ∉ p.firstName ∧ ' ' ∉ p.firstName) ∧
  ('/' ∉ p.lastName ∧ ' ' ∉ p.lastName)

instance (p : TokenPayload) : Decidable (TokenFieldsOk p) := by
  unfold TokenFieldsOk; infer_instance

theorem macSig_not_mem (secret body : Str) :
    '/' ∉ macSig secret body ∧ ' ' ∉ macSig secret body := by
  constructor
  · intro hmem
    have := List.of_mem_filter hmem
    simp at this
  · intro hmem
    have := List.of_mem_filter hmem
    simp at this

theorem joinSep_append_single (sep : Char) :
    ∀ ss : List Str, ss ≠ [] → ∀ t : Str,
      joinSep sep (ss ++ [t]) = joinSep sep ss ++ sep :: t
  | [], h, _ => absurd rfl h
  | [s], _, t => rfl
  | s :: u :: us, _, t => by
    rw [List.cons_append, joinSep_cons_of_ne_nil sep s (by simp),
      joinSep_cons_of_ne_nil sep s (by simp),
      joinSep_append_single sep (u :: us) (by simp) t]
    simp

/-- A well-signed token parses back into its seven components. -/
theorem splitSep_signJwt {secret : Str} {p : TokenPayload} {iat expSec : Nat}
    (hp : TokenFieldsOk p) :
    splitSep '/' (signJwt secret p iat expSec) =
      jwtBodyFields p iat expSec ++
        [macSig secret (joinSep '/' (jwtBodyFields p iat expSec))] := by
  obtain ⟨⟨h1, _⟩, ⟨h2, _⟩, ⟨h3, _⟩, ⟨h4, _⟩⟩ := hp
  have hfree : ∀ s ∈ jwtBodyFields p iat expSec ++
      [macSig secret (joinSep '/' (jwtBodyFields p iat expSec))], '/' ∉ s := by
    intro s hs
    simp only [jwtBodyFields, List.mem_append, List.mem_cons,
      List.mem_singleton, List.not_mem_nil, or_false] at hs
    rcases hs with hs | hs
    · rcases hs with h | h | h | h | h | h
      · exact h ▸ h1
      · exact h ▸ h2
      · exact h ▸ h3
      · exact h ▸ h4
      · subst h; simp [List.mem_replicate]
      · subst h; simp [List.mem_replicate]
    · exact hs ▸ (macSig_not_mem secret _).1
  have hjoin : signJwt secret p iat expSec =
      joinSep '/' (jwtBodyFields p iat expSec ++
        [macSig secret (joinSep '/' (jwtBodyFields p iat expSec))]) := by
    rw [joinSep_append_single '/' _ (by simp [jwtBodyFields])]
    rfl
  rw [hjoin, splitSep_joinSep (by simp [jwtBodyFields]) hfree]

/-- Round trip through the token model: verifying a token signed with the
same secret yields the embedded claims before expiry and `expired` from the
expiry instant on. -/
theorem verifyJwt_signJwt {secret : Str} {p : TokenPayload} {iat expSec : Nat}
    (hp : TokenFieldsOk p) (now : Nat) :
    verifyJwt secret now (signJwt secret p iat expSec) =
      if expSec ≤ now then .error .expired else .ok p := by
  rw [verifyJwt, splitSep_signJwt hp]
  simp only [jwtBodyFields, List.cons_append, List.nil_append]
  rw [if_pos trivial]
  simp only [List.length_replicate]

/-- Well-signed tokens contain no space, so the `Bearer` header splits
cleanly around them. -/
theorem space_not_mem_signJwt {secret : Str} {p : TokenPayload}
    {iat expSec : Nat} (hp : TokenFieldsOk p) :
    ' ' ∉ signJwt secret p iat expSec := by
  obtain ⟨⟨_, h1⟩, ⟨_, h2⟩, ⟨_, h3⟩, ⟨_, h4⟩⟩ := hp
  intro hmem
  rw [signJwt] at hmem
  rcases List.mem_append.1 hmem with hb | hs
  · rcases mem_joinSep hb with h | ⟨s, hs, hc⟩
    · exact absurd h (by decide)
    · simp only [jwtBodyFields, List.mem_cons, List.mem_singleton,
        List.not_mem_nil, or_false] at hs
      rcases hs with h | h | h | h | h | h
      · exact h ▸ h1 <| hc
      · exact h ▸ h2 <| hc
      · exact h ▸ h3 <| hc
      · exact h ▸ h4 <| hc
      · rw [h] at hc; simp [List.mem_replicate] at hc
      · rw [h] at hc; simp [List.mem_replicate] at hc
  · rcases List.mem_cons.1 hs with h | h
    · exact absurd h (by decide)
    · exact (macSig_not_mem secret _).2 h

/-! ## Credential store and login (`auth.js`) -/

/-- A customer record of the static credential store. -/
structure Customer where
  id : Str
  email : Str
  phone : Str
  firstName : Str
  lastName : Str
deriving DecidableEq, Repr

/-- The static in-memory customer list of `auth.js` (`mockCustomers`). -/
def mockCustomers : List Customer :=
  [⟨"cust-001".toList, "customer@example.com".toList, "0400123456".toList,
      "John".toList, "Smith".toList⟩,
    ⟨"cust-002".toList, "jane.doe@example.com".toList, "0411222333".toList,
      "Jane".toList, "Doe".toList⟩]

/-- `JWT_SECRET` default of `auth.js` and the middleware. -/
def jwtSecret : Str := "default_dev_secret_change_in_production".toList

/-- `TOKEN_EXPIRY = '24h'`, in seconds. -/
def tokenExpirySeconds : Nat := 86400

/-- The token claims issued for a customer (`tokenPayload` in `auth.js`). -/
def customerPayload (c : Customer) : TokenPayload :=
  ⟨c.id, c.email, c.firstName, c.lastName⟩

/-- The successful login response: token plus public customer fields. -/
structure LoginSuccess where
  token : Str
  customer : Customer
deriving DecidableEq, Repr

/-- The credential-store lookup of `auth.js`:
`mockCustomers.find(c => c.email.toLowerCase() === normalizedEmail &&
c.phone === normalizedPhone)`. -/
def findCustomer (normalizedEmail normalizedPhone : Str) : Option Customer :=
  mockCustomers.find? fun c =>
    decide (toLowerStr c.email = normalizedEmail ∧ c.phone = normalizedPhone)

/-- `POST /api/auth/login` (`auth.js`): validates presence of both fields,
normalizes them, looks up the customer, and either issues a 24-hour token or
answers with a generic 401. -/
def login (email phone : Option Str) (now : Nat) :
    Except ErrorResponse LoginSuccess :=
  match email, phone with
  | some e, some p =>
    if e = [] ∨ p = [] then
      .error ⟨400, "Bad Request".toList,
        "Email and phone number are required".toList⟩
    else
      match findCustomer (normalizeEmail e) (normalizePhone p) with
      | some customer =>
        .ok ⟨signJwt jwtSecret (customerPayload customer) now
              (now + tokenExpirySeconds), customer⟩
      | none =>
        .error ⟨401, "Unauthorized".toList,
          "Invalid email or phone number".toList⟩
  | _, _ =>
    .error ⟨400, "Bad Request".toList,
      "Email and phone number are required".toList⟩

/-! ## Message log (`messages.js`)

The JSON file behind `readMessages`/`writeMessages` is modelled as an explicit
`List Message` value threaded through the handlers: a handler that mutates the
file returns the new list, handlers that only read return none. -/

/-- A stored message record (`newMessage` object in `messages.js`). -/
structure Message where
  id : Str
  bookingId : Str
  customerId : Str
  customerName : Str
  customerEmail : Str
  content : Str
  createdAt : Nat
  isFromCustomer : Bool
deriving DecidableEq, Repr

/-- The sort order of `(a, b) => new Date(b.createdAt) - new Date(a.createdAt)`:
newest first. -/
def createdDesc (a b : Message) : Prop := b.createdAt ≤ a.createdAt

instance : DecidableRel createdDesc := fun _ b => Nat.decLe b.createdAt _

instance : IsTotal Message createdDesc :=
  ⟨fun a b => Nat.le_total b.createdAt a.createdAt⟩

instance : IsTrans Message createdDesc :=
  ⟨fun _ _ _ hab hbc => Nat.le_trans hbc hab⟩

/-- `GET /api/messages/booking/:bookingId`: filter the log by `bookingId`,
newest first.  The authenticated caller `_user` (from `req.user`) is received
but never consulted by the handler. -/
def getBookingMessages (_user : TokenPayload) (bookingId : Str)
    (log : List Message) : List Message :=
  List.insertionSort createdDesc
    (log.filter fun m => decide (m.bookingId = bookingId))

/-- `GET /api/messages/all`: filter the log by the caller's `customerId`,
newest first. -/
def getAllMessages (user : TokenPayload) (log : List Message) : List Message :=
  List.insertionSort createdDesc
    (log.filter fun m => decide (m.customerId = user.customerId))

/-- `` `${firstName} ${lastName}`.trim() || 'Customer' `` from `messages.js`. -/
def mkCustomerName (fn ln : Str) : Str :=
  let nm := trimStr (fn ++ ' ' :: ln)
  if nm = [] then "Customer".toList else nm

/-- The record `POST /api/messages/booking/:bookingId` stores: trimmed
content, server-side id and timestamp, authorship from the session. -/
def newMessageRecord (bookingId : Str) (user : TokenPayload) (content : Str)
    (now : Nat) (newId : Str) : Message :=
  ⟨newId, bookingId, user.customerId,
    mkCustomerName user.firstName user.lastName, user.email,
    trimStr content, now, true⟩

/-- `POST /api/messages/booking/:bookingId`: validates the content (present,
non-empty after trim, at most 2000 characters before trim), then appends one
record to the log.  Returns the handler result and the new log. -/
def postBookingMessage (bookingId : Str) (content : Option Str)
    (user : TokenPayload) (now : Nat) (newId : Str) (log : List Message) :
    Except ErrorResponse Message × List Message :=
  match content with
  | none =>
    (.error ⟨400, "Bad Request".toList, "Message content is required".toList⟩,
      log)
  | some s =>
    if (trimStr s).length = 0 then
      (.error ⟨400, "Bad Request".toList,
        "Message content is required".toList⟩, log)
    else if s.length > 2000 then
      (.error ⟨400, "Bad Request".toList,
        "Message content cannot exceed 2000 characters".toList⟩, log)
    else
      let m := newMessageRecord bookingId user s now newId
      (.ok m, log ++ [m])

/-! ## Upstream job client (`servicem8.js`) and booking routes (`bookings.js`)

The upstream ServiceM8 API is modelled by an `Option` parameter: `some` is a
successful upstream response, `none` covers both an absent API key and any
request failure — exactly the cases in which the source falls back to its
mock data. -/

/-- A ServiceM8 job.  `total_amount` (a whole-dollar figure in all data the
repository ships) is modelled as a `Nat`; the detail-only fields are `Option`s
because the list endpoint omits them. -/
structure Job where
  uuid : Str
  job_address : Str
  job_description : Str
  status : Str
  date : Str
  time : Str
  company_uuid : Str
  generated_job_id : Str
  total_amount : Nat
  work_done_description : Str
  notes : Option Str
  contact_first : Option Str
  contact_last : Option Str
  contact_phone : Option Str
  contact_email : Option Str
deriving DecidableEq, Repr

/-- The fixed fallback dataset (`getMockJobs` in `servicem8.js`). -/
def getMockJobs : List Job :=
  [⟨"job-001-uuid".toList, "123 Main Street, Sydney NSW 2000".toList,
      "Annual HVAC Maintenance".toList, "Completed".toList,
      "2024-11-20".toList, "09:00".toList, "company-001".toList,
      "JOB-2024-001".toList, 250,
      "Completed full system check and filter replacement".toList,
      none, none, none, none, none⟩,
    ⟨"job-002-uuid".toList, "456 George Street, Melbourne VIC 3000".toList,
      "Emergency Plumbing Repair".toList, "Quote".toList,
      "2024-11-25".toList, "14:00".toList, "company-001".toList,
      "JOB-2024-002".toList, 180, "".toList,
      none, none, none, none, none⟩,
    ⟨"job-003-uuid".toList, "789 Collins Avenue, Brisbane QLD 4000".toList,
      "Electrical Safety Inspection".toList, "Work Order".toList,
      "2024-11-28".toList, "10:30".toList, "company-001".toList,
      "JOB-2024-003".toList, 320, "".toList,
      none, none, none, none, none⟩]

/-- The extra detail fields `getMockJobById` spreads onto a found job. -/
def mockJobDetails (j : Job) : Job :=
  { j with
    notes :=
      some "Customer prefers morning appointments. Gate code is 1234.".toList,
    contact_first := some "John".toList,
    contact_last := some "Smith".toList,
    contact_phone := some "0400 123 456".toList,
    contact_email := some "customer@example.com".toList }

/-- `getMockJobById` in `servicem8.js`: look the id up in the fallback
dataset, returning `null` when absent. -/
def getMockJobById (jobId : Str) : Option Job :=
  match getMockJobs.find? fun j => decide (j.uuid = jobId) with
  | none => none
  | some j => some (mockJobDetails j)

/-- `getMockJobsByEmail` in `servicem8.js`: the fallback returns the mock
jobs only for the demo email, the empty list otherwise. -/
def getMockJobsByEmail (email : Str) : List Job :=
  if toLowerStr email = "customer@example.com".toList then getMockJobs else []

/-- `getJobById` in `servicem8.js`: a successful upstream response is passed
through; on failure (or missing API key) the fallback dataset decides. -/
def getJobById (upstream : Option Job) (jobId : Str) : Option Job :=
  match upstream with
  | some j => some j
  | none => getMockJobById jobId

/-- `getJobsByCustomerEmail` in `servicem8.js`: on upstream success ALL jobs
are returned — the email argument is deliberately not used to filter; on
failure the fallback `getMockJobsByEmail` decides. -/
def getJobsByCustomerEmail (upstream : Option (List Job)) (email : Str) :
    List Job :=
  match upstream with
  | some jobs => jobs
  | none => getMockJobsByEmail email

/-- `x || d` on a JavaScript string field: empty is falsy. -/
def orDefault (s d : Str) : Str := if s = [] then d else s

/-- `x || null` on a JavaScript string field. -/
def orNone (s : Str) : Option Str := if s = [] then none else some s

/-- A booking summary as reshaped by `GET /api/bookings`. -/
structure BookingSummary where
  id : Str
  jobNumber : Str
  address : Str
  description : Str
  status : Str
  date : Option Str
  time : Option Str
  amount : Nat
deriving DecidableEq, Repr

/-- The per-job reshaping of `GET /api/bookings`. -/
def toBookingSummary (j : Job) : BookingSummary :=
  ⟨j.uuid,
    orDefault j.generated_job_id ("JOB-".toList ++ j.uuid.take 8),
    orDefault j.job_address "No address provided".toList,
    orDefault j.job_description "No description".toList,
    orDefault j.status "Unknown".toList,
    orNone j.date, orNone j.time, j.total_amount⟩

/-- `GET /api/bookings` (`bookings.js`): fetch jobs for the session's email
and reshape them. -/
def listBookings (upstream : Option (List Job)) (user : TokenPayload) :
    List BookingSummary :=
  (getJobsByCustomerEmail upstream user.email).map toBookingSummary

/-- The contact sub-object of a detailed booking view. -/
structure ContactInfo where
  firstName : Str
  lastName : Str
  phone : Str
  email : Str
deriving DecidableEq, Repr

/-- A detailed booking as reshaped by `GET /api/bookings/:id`. -/
structure BookingDetail where
  id : Str
  jobNumber : Str
  address : Str
  description : Str
  status : Str
  date : Option Str
  time : Option Str
  amount : Nat
  workDone : Str
  notes : Str
  contact : ContactInfo
deriving DecidableEq, Repr

/-- The reshaping of `GET /api/bookings/:id`. -/
def toBookingDetail (j : Job) : BookingDetail :=
  ⟨j.uuid,
    orDefault j.generated_job_id ("JOB-".toList ++ j.uuid.take 8),
    orDefault j.job_address "No address provided".toList,
    orDefault j.job_description "No description".toList,
    orDefault j.status "Unknown".toList,
    orNone j.date, orNone j.time, j.total_amount,
    j.work_done_description, j.notes.getD [],
    ⟨(j.contact_first).getD [], (j.contact_last).getD [],
      (j.contact_phone).getD [], (j.contact_email).getD []⟩⟩

/-- `GET /api/bookings/:id` (`bookings.js`): 404 when `getJobById` yields
`null`, otherwise the detailed reshaped booking. -/
def getBookingById (upstream : Option Job) (id : Str) :
    Except ErrorResponse BookingDetail :=
  match getJobById upstream id with
  | none => .error ⟨404, "Not Found".toList, "Booking not found".toList⟩
  | some job => .ok (toBookingDetail job)

/-! ## Verified properties of the message log -/

/-- C3: for every bookingId and every state of the message log,
`listForBooking` returns exactly the messages whose `bookingId` equals the
argument (a permutation of the filtered log, hence the same members and no
others), sorted by `createdAt` descending. -/
theorem listForBooking_filters_and_sorts (user : TokenPayload)
    (bookingId : Str) (log : List Message) :
    (∀ m : Message, m ∈ getBookingMessages user bookingId log ↔
      m ∈ log ∧ m.bookingId = bookingId) ∧
    List.Sorted createdDesc (getBookingMessages user bookingId log) ∧
    (getBookingMessages user bookingId log).Perm
      (log.filter fun m => decide (m.bookingId = bookingId)) := by
  refine ⟨?_, ?_, ?_⟩
  · intro m
    rw [getBookingMessages, List.mem_insertionSort, List.mem_filter]
    simp
  · exact List.sorted_insertionSort createdDesc _
  · exact List.perm_insertionSort createdDesc _

/-- Equation lemma: the handler on a present content value. -/
theorem postBookingMessage_some (bookingId : Str) (s : Str)
    (user : TokenPayload) (now : Nat) (newId : Str) (log : List Message) :
    postBookingMessage bookingId (some s) user now newId log =
      if (trimStr s).length = 0 then
        (.error ⟨400, "Bad Request".toList,
          "Message content is required".toList⟩, log)
      else if s.length > 2000 then
        (.error ⟨400, "Bad Request".toList,
          "Message content cannot exceed 2000 characters".toList⟩, log)
      else
        (.ok (newMessageRecord bookingId user s now newId),
          log ++ [newMessageRecord bookingId user s now newId]) := rfl

/-- C2: a message whose content is empty after trimming, or longer than 2000
characters, is rejected with a 400 response and the log is returned
unchanged — no record is added or modified on the error path. -/
theorem postMessage_invalid_leaves_log (bookingId : Str) (s : Str)
    (user : TokenPayload) (now : Nat) (newId : Str) (log : List Message)
    (h : trimStr s = [] ∨ s.length > 2000) :
    (postBookingMessage bookingId (some s) user now newId log).2 = log ∧
    ∃ e : ErrorResponse,
      (postBookingMessage bookingId (some s) user now newId log).1 =
        .error e ∧ e.status = 400 := by
  rcases h with h | h
  · have ht : (trimStr s).length = 0 := by rw [h]; rfl
    rw [postBookingMessage_some, if_pos ht]
    exact ⟨rfl, _, rfl, rfl⟩
  · by_cases ht : (trimStr s).length = 0
    · rw [postBookingMessage_some, if_pos ht]
      exact ⟨rfl, _, rfl, rfl⟩
    · rw [postBookingMessage_some, if_neg ht, if_pos h]
      exact ⟨rfl, _, rfl, rfl⟩

/-- Witness for C2 at a concrete whitespace-only message. -/
theorem postMessage_invalid_leaves_log_witness :
    (postBookingMessage "job-001-uuid".toList (some "   ".toList)
      ⟨"cust-001".toList, "customer@example.com".toList, "John".toList,
        "Smith".toList⟩ 5 "id-1".toList []).2 = ([] : List Message) ∧
    ∃ e : ErrorResponse,
      (postBookingMessage "job-001-uuid".toList (some "   ".toList)
        ⟨"cust-001".toList, "customer@example.com".toList, "John".toList,
          "Smith".toList⟩ 5 "id-1".toList []).1 = .error e ∧ e.status = 400 :=
  postMessage_invalid_leaves_log _ _ _ _ _ _ (Or.inl (by decide))

/-- C10: on every successful append the stored (and returned) record carries
the submitted content with surrounding whitespace removed, while the
2000-character limit is applied to the untrimmed submission. -/
theorem postMessage_trims_content (bookingId : Str) (s : Str)
    (user : TokenPayload) (now : Nat) (newId : Str) (log : List Message) :
    (trimStr s ≠ [] → s.length ≤ 2000 →
      postBookingMessage bookingId (some s) user now newId log =
        (.ok (newMessageRecord bookingId user s now newId),
          log ++ [newMessageRecord bookingId user s now newId]) ∧
      (newMessageRecord bookingId user s now newId).content = trimStr s) ∧
    (trimStr s ≠ [] → s.length > 2000 →
      (postBookingMessage bookingId (some s) user now newId log).1 =
        .error ⟨400, "Bad Request".toList,
          "Message content cannot exceed 2000 characters".toList⟩) := by
  constructor
  · intro hne hle
    have ht : ¬(trimStr s).length = 0 := by
      simpa [List.length_eq_zero] using hne
    have h2 : ¬s.length > 2000 := not_lt.2 hle
    rw [postBookingMessage_some, if_neg ht, if_neg h2]
    exact ⟨rfl, rfl⟩
  · intro hne hgt
    have ht : ¬(trimStr s).length = 0 := by
      simpa [List.length_eq_zero] using hne
    rw [postBookingMessage_some, if_neg ht, if_pos hgt]

theorem dropWhile_replicate_append {p : Char → Bool} {c : Char}
    (hc : p c) : ∀ (n : Nat) (t : Str),
      List.dropWhile p (List.replicate n c ++ t) = List.dropWhile p t
  | 0, _ => rfl
  | n + 1, t => by
    rw [List.replicate_succ, List.cons_append, List.dropWhile_cons_of_pos hc]
    exact dropWhile_replicate_append hc n t

/-- Trimming one letter followed by `n` blanks leaves the letter. -/
theorem trimStr_char_spaces (n : Nat) :
    trimStr ('a' :: List.replicate n ' ') = ['a'] := by
  rw [trimStr, List.dropWhile_cons_of_neg (by decide), List.reverse_cons,
    List.reverse_replicate, dropWhile_replicate_append (by decide) n ['a'],
    List.dropWhile_cons_of_neg (by decide)]
  rfl

/-- Witness for C10: a short message with trailing blanks is stored trimmed;
a message of 2001 characters, 2000 of them trailing blanks (so only one
character after trimming), is still rejected — the limit reads the untrimmed
content. -/
theorem postMessage_trims_content_witness :
    (postBookingMessage "job-001-uuid".toList (some "  Hello  ".toList)
        ⟨"cust-001".toList, "customer@example.com".toList, "John".toList,
          "Smith".toList⟩ 5 "id-1".toList [] =
      (.ok (newMessageRecord "job-001-uuid".toList
          ⟨"cust-001".toList, "customer@example.com".toList, "John".toList,
            "Smith".toList⟩ "  Hello  ".toList 5 "id-1".toList),
        [newMessageRecord "job-001-uuid".toList
          ⟨"cust-001".toList, "customer@example.com".toList, "John".toList,
            "Smith".toList⟩ "  Hello  ".toList 5 "id-1".toList]) ∧
      (newMessageRecord "job-001-uuid".toList
        ⟨"cust-001".toList, "customer@example.com".toList, "John".toList,
          "Smith".toList⟩ "  Hello  ".toList 5 "id-1".toList).content =
        trimStr "  Hello  ".toList) ∧
    (postBookingMessage "job-001-uuid".toList
        (some ('a' :: List.replicate 2000 ' '))
        ⟨"cust-001".toList, "customer@example.com".toList, "John".toList,
          "Smith".toList⟩ 5 "id-1".toList []).1 =
      .error ⟨400, "Bad Request".toList,
        "Message content cannot exceed 2000 characters".toList⟩ := by
  constructor
  · exact (postMessage_trims_content _ _ _ _ _ _).1 (by decide) (by decide)
  · refine (postMessage_trims_content _ _ _ _ _ _).2 ?_ ?_
    · rw [trimStr_char_spaces]
      simp
    · rw [List.length_cons, List.length_replicate]
      omega

/-- C8: every append either rejects the message and hands back the log
unchanged, or succeeds and extends the log by exactly the one new record, the
previously stored prefix surviving verbatim; no handler of the message log
updates or deletes an existing record. -/
theorem append_frame (bookingId : Str) (content : Option Str)
    (user : TokenPayload) (now : Nat) (newId : Str) (log : List Message) :
    ((postBookingMessage bookingId content user now newId log).2 = log ∨
      ∃ m : Message,
        (postBookingMessage bookingId content user now newId log).1 = .ok m ∧
        (postBookingMessage bookingId content user now newId log).2 =
          log ++ [m]) ∧
    ((postBookingMessage bookingId content user now newId log).2).take
      log.length = log := by
  have hmain : (postBookingMessage bookingId content user now newId log).2 =
      log ∨
      ∃ m : Message,
        (postBookingMessage bookingId content user now newId log).1 = .ok m ∧
        (postBookingMessage bookingId content user now newId log).2 =
          log ++ [m] := by
    cases content with
    | none => exact Or.inl rfl
    | some s =>
      by_cases ht : (trimStr s).length = 0
      · rw [postBookingMessage_some, if_pos ht]
        exact Or.inl rfl
      · by_cases h2 : s.length > 2000
        · rw [postBookingMessage_some, if_neg ht, if_pos h2]
          exact Or.inl rfl
        · rw [postBookingMessage_some, if_neg ht, if_neg h2]
          exact Or.inr ⟨_, rfl, rfl⟩
  refine ⟨hmain, ?_⟩
  rcases hmain with h | ⟨m, _, h⟩
  · rw [h, List.take_length]
  · rw [h]
    simp

/-- C4: a successfully appended message is a member of the next
`listForBooking` answer for its bookingId — whoever asks — and of the next
`listForCustomer` answer for its author, with the record (hence its content)
intact. -/
theorem append_roundTrip (bookingId : Str) (content : Option Str)
    (user caller : TokenPayload) (now : Nat) (newId : Str)
    (log log' : List Message) (msg : Message)
    (h : postBookingMessage bookingId content user now newId log =
      (.ok msg, log')) :
    msg ∈ getBookingMessages caller bookingId log' ∧
    msg ∈ getAllMessages user log' := by
  have hkey : msg = newMessageRecord bookingId user (content.getD []) now newId
      ∧ log' = log ++ [msg] := by
    cases content with
    | none =>
      exact absurd (congrArg Prod.fst h) (by simp [postBookingMessage])
    | some s =>
      by_cases ht : (trimStr s).length = 0
      · rw [postBookingMessage_some, if_pos ht] at h
        exact absurd (congrArg Prod.fst h) (by simp)
      · by_cases h2 : s.length > 2000
        · rw [postBookingMessage_some, if_neg ht, if_pos h2] at h
          exact absurd (congrArg Prod.fst h) (by simp)
        · rw [postBookingMessage_some, if_neg ht, if_neg h2,
            Prod.mk.injEq] at h
          obtain ⟨h1, hl⟩ := h
          have hmsg : newMessageRecord bookingId user s now newId = msg := by
            simpa using h1
          exact ⟨hmsg.symm, by rw [← hl, hmsg]⟩
  obtain ⟨hmsg, hlog⟩ := hkey
  subst hlog
  constructor
  · rw [getBookingMessages, List.mem_insertionSort, List.mem_filter]
    refine ⟨List.mem_append_right log (List.mem_singleton.2 rfl), ?_⟩
    rw [hmsg]
    simp [newMessageRecord]
  · rw [getAllMessages, List.mem_insertionSort, List.mem_filter]
    refine ⟨List.mem_append_right log (List.mem_singleton.2 rfl), ?_⟩
    rw [hmsg]
    simp [newMessageRecord]

/-- Witness for C4 at a concrete append into the empty log. -/
theorem append_roundTrip_witness :
    newMessageRecord "job-001-uuid".toList
        ⟨"cust-001".toList, "customer@example.com".toList, "John".toList,
          "Smith".toList⟩ "Hello".toList 5 "id-1".toList ∈
      getBookingMessages
        ⟨"cust-002".toList, "jane.doe@example.com".toList, "Jane".toList,
          "Doe".toList⟩ "job-001-uuid".toList
        [newMessageRecord "job-001-uuid".toList
          ⟨"cust-001".toList, "customer@example.com".toList, "John".toList,
            "Smith".toList⟩ "Hello".toList 5 "id-1".toList] ∧
    newMessageRecord "job-001-uuid".toList
        ⟨"cust-001".toList, "customer@example.com".toList, "John".toList,
          "Smith".toList⟩ "Hello".toList 5 "id-1".toList ∈
      getAllMessages
        ⟨"cust-001".toList, "customer@example.com".toList, "John".toList,
          "Smith".toList⟩
        [newMessageRecord "job-001-uuid".toList
          ⟨"cust-001".toList, "customer@example.com".toList, "John".toList,
            "Smith".toList⟩ "Hello".toList 5 "id-1".toList] :=
  append_roundTrip "job-001-uuid".toList (some "Hello".toList)
    ⟨"cust-001".toList, "customer@example.com".toList, "John".toList,
      "Smith".toList⟩
    ⟨"cust-002".toList, "jane.doe@example.com".toList, "Jane".toList,
      "Doe".toList⟩ 5 "id-1".toList [] _ _ rfl

/-- C9: the messages-for-booking handler reads only its `bookingId`
argument: any two authenticated callers receive the identical list, and every
stored message on the booking — whoever authored it — is in that list. -/
theorem bookingMessages_caller_independent (u1 u2 : TokenPayload)
    (bookingId : Str) (log : List Message) :
    getBookingMessages u1 bookingId log = getBookingMessages u2 bookingId log
    ∧ ∀ m ∈ log, m.bookingId = bookingId →
      m ∈ getBookingMessages u1 bookingId log := by
  refine ⟨rfl, ?_⟩
  intro m hm hb
  rw [getBookingMessages, List.mem_insertionSort, List.mem_filter]
  exact ⟨hm, by simp [hb]⟩

/-- Witness for C9: a message authored by one customer is readable in
another customer's session. -/
theorem bookingMessages_caller_independent_witness :
    newMessageRecord "job-001-uuid".toList
        ⟨"cust-001".toList, "customer@example.com".toList, "John".toList,
          "Smith".toList⟩ "Hello".toList 5 "id-1".toList ∈
      getBookingMessages
        ⟨"cust-002".toList, "jane.doe@example.com".toList, "Jane".toList,
          "Doe".toList⟩ "job-001-uuid".toList
        [newMessageRecord "job-001-uuid".toList
          ⟨"cust-001".toList, "customer@example.com".toList, "John".toList,
            "Smith".toList⟩ "Hello".toList 5 "id-1".toList] :=
  (bookingMessages_caller_independent
      ⟨"cust-002".toList, "jane.doe@example.com".toList, "Jane".toList,
        "Doe".toList⟩
      ⟨"cust-001".toList, "customer@example.com".toList, "John".toList,
        "Smith".toList⟩ "job-001-uuid".toList
      [newMessageRecord "job-001-uuid".toList
        ⟨"cust-001".toList, "customer@example.com".toList, "John".toList,
          "Smith".toList⟩ "Hello".toList 5 "id-1".toList]).2 _
    (List.mem_singleton.2 rfl) (by decide)

/-! ## Verified properties of login and session verification -/

/-- Equation lemma: `login` on a pair of present values. -/
theorem login_some (e p : Str) (now : Nat) :
    login (some e) (some p) now =
      if e = [] ∨ p = [] then
        .error ⟨400, "Bad Request".toList,
          "Email and phone number are required".toList⟩
      else
        match findCustomer (normalizeEmail e) (normalizePhone p) with
        | some customer =>
          .ok ⟨signJwt jwtSecret (customerPayload customer) now
                (now + tokenExpirySeconds), customer⟩
        | none =>
          .error ⟨401, "Unauthorized".toList,
            "Invalid email or phone number".toList⟩ := rfl

/-- C1: a present (email, phone) pair whose normalization matches a stored
customer logs in and receives a token whose claims decode (before expiry) to
that customer's id, email, firstName and lastName; a present non-matching
pair receives one fixed Unauthorized response, identical whichever field was
wrong. -/
theorem login_matches_credentials (e p : Str) (now : Nat)
    (he : e ≠ []) (hp : p ≠ []) :
    (∀ c : Customer,
      findCustomer (normalizeEmail e) (normalizePhone p) = some c →
      login (some e) (some p) now =
        .ok ⟨signJwt jwtSecret (customerPayload c) now
              (now + tokenExpirySeconds), c⟩ ∧
      ∀ t : Nat, t < now + tokenExpirySeconds →
        verifyJwt jwtSecret t
            (signJwt jwtSecret (customerPayload c) now
              (now + tokenExpirySeconds)) =
          .ok (customerPayload c)) ∧
    (findCustomer (normalizeEmail e) (normalizePhone p) = none →
      login (some e) (some p) now =
        .error ⟨401, "Unauthorized".toList,
          "Invalid email or phone number".toList⟩) := by
  have hcond : ¬(e = [] ∨ p = []) := by
    rintro (h | h)
    · exact he h
    · exact hp h
  constructor
  · intro c hc
    constructor
    · rw [login_some, if_neg hcond, hc]
    · have hmem : c ∈ mockCustomers := List.mem_of_find?_eq_some hc
      have hok : TokenFieldsOk (customerPayload c) := by
        have hall : ∀ c ∈ mockCustomers, TokenFieldsOk (customerPayload c) :=
          by decide
        exact hall c hmem
      intro t ht
      rw [verifyJwt_signJwt hok, if_neg (not_le.2 ht)]
  · intro hc
    rw [login_some, if_neg hcond, hc]

/-- Witness for C1: a denormalized demo credential pair logs in as
`cust-001` and the token decodes to its claims; a non-matching pair gets the
generic 401. -/
theorem login_matches_credentials_witness :
    login (some " Customer@Example.com".toList) (some "0400 123-456".toList) 0
      = .ok ⟨signJwt jwtSecret
            (customerPayload ⟨"cust-001".toList,
              "customer@example.com".toList, "0400123456".toList,
              "John".toList, "Smith".toList⟩) 0 (0 + tokenExpirySeconds),
          ⟨"cust-001".toList, "customer@example.com".toList,
            "0400123456".toList, "John".toList, "Smith".toList⟩⟩ ∧
    verifyJwt jwtSecret 100
        (signJwt jwtSecret
          (customerPayload ⟨"cust-001".toList,
            "customer@example.com".toList, "0400123456".toList,
            "John".toList, "Smith".toList⟩) 0 (0 + tokenExpirySeconds)) =
      .ok (customerPayload ⟨"cust-001".toList,
        "customer@example.com".toList, "0400123456".toList, "John".toList,
        "Smith".toList⟩) ∧
    login (some "x@x.com".toList) (some "000".toList) 0 =
      .error ⟨401, "Unauthorized".toList,
        "Invalid email or phone number".toList⟩ := by
  have h := login_matches_credentials " Customer@Example.com".toList
    "0400 123-456".toList 0 (by decide) (by decide)
  have h1 := h.1 ⟨"cust-001".toList, "customer@example.com".toList,
    "0400123456".toList, "John".toList, "Smith".toList⟩ (by decide)
  have h2 := login_matches_credentials "x@x.com".toList "000".toList 0
    (by decide) (by decide)
  exact ⟨h1.1, h1.2 100 (by decide), h2.2 (by decide)⟩

/-- Equation lemma: the middleware on a present header. -/
theorem verifyToken_some (secret : Str) (now : Nat) (h : Str) :
    verifyToken secret now (some h) =
      if (splitSep ' ' h).length = 2 ∧ (splitSep ' ' h).head? = some bearerWord
      then
        match verifyJwt secret now ((splitSep ' ' h).getD 1 []) with
        | .ok decoded => .ok decoded
        | .error .expired => .error (unauthorizedResp "Token has expired")
        | .error .invalid => .error (unauthorizedResp "Invalid token")
      else
        .error (unauthorizedResp "Invalid authorization header format") := rfl

theorem splitSep_bearerHeader {t : Str} (ht : ' ' ∉ t) :
    splitSep ' ' (bearerHeader t) = [bearerWord, t] := by
  rw [bearerHeader, splitSep_append (show (' ' : Char) ∉ bearerWord by decide) t,
    splitSep_of_not_mem ht]

/-- The middleware on a well-shaped header reduces to `jwt.verify` on the
carried token. -/
theorem verifyToken_bearer {secret : Str} {now : Nat} {t : Str}
    (ht : ' ' ∉ t) :
    verifyToken secret now (some (bearerHeader t)) =
      match verifyJwt secret now t with
      | .ok decoded => .ok decoded
      | .error .expired => .error (unauthorizedResp "Token has expired")
      | .error .invalid => .error (unauthorizedResp "Invalid token") := by
  rw [verifyToken_some, splitSep_bearerHeader ht, if_pos ⟨rfl, rfl⟩]
  rfl

/-- C5: `verify` answers 401 exactly when the token is missing, the header
is not of the two-part `Bearer <token>` shape, the token is expired at or
after its expiry instant, or its signature does not check out; on every other
input — a well-shaped header around a token signed with the verifier's
secret and not yet expired — it succeeds with the embedded claims, and every
success arises that way. -/
theorem verifyToken_cases (secret : Str) (now : Nat) :
    (verifyToken secret now none =
      .error (unauthorizedResp "No authorization token provided")) ∧
    (∀ h : Str,
      ¬((splitSep ' ' h).length = 2 ∧ (splitSep ' ' h).head? = some bearerWord)
      → verifyToken secret now (some h) =
        .error (unauthorizedResp "Invalid authorization header format")) ∧
    (∀ (p : TokenPayload) (iat expSec : Nat), TokenFieldsOk p →
      now < expSec →
      verifyToken secret now (some (bearerHeader (signJwt secret p iat expSec)))
        = .ok p) ∧
    (∀ (p : TokenPayload) (iat expSec : Nat), TokenFieldsOk p →
      expSec ≤ now →
      verifyToken secret now (some (bearerHeader (signJwt secret p iat expSec)))
        = .error (unauthorizedResp "Token has expired")) ∧
    (∀ t : Str, ' ' ∉ t → verifyJwt secret now t = .error .invalid →
      verifyToken secret now (some (bearerHeader t)) =
        .error (unauthorizedResp "Invalid token")) ∧
    (∀ (h : Str) (p : TokenPayload),
      verifyToken secret now (some h) = .ok p ↔
        ∃ t : Str, h = bearerHeader t ∧ ' ' ∉ t ∧
          verifyJwt secret now t = .ok p) := by
  refine ⟨rfl, ?_, ?_, ?_, ?_, ?_⟩
  · intro h hc
    rw [verifyToken_some, if_neg hc]
  · intro p iat expSec hp hlt
    rw [verifyToken_bearer (space_not_mem_signJwt hp),
      verifyJwt_signJwt hp now, if_neg (not_le.2 hlt)]
  · intro p iat expSec hp hle
    rw [verifyToken_bearer (space_not_mem_signJwt hp),
      verifyJwt_signJwt hp now, if_pos hle]
  · intro t ht hv
    rw [verifyToken_bearer ht, hv]
  · intro h p
    constructor
    · intro hok
      rw [verifyToken_some] at hok
      by_cases hc : (splitSep ' ' h).length = 2 ∧
        (splitSep ' ' h).head? = some bearerWord
      · rw [if_pos hc] at hok
        obtain ⟨hlen, hhead⟩ := hc
        obtain ⟨a, b, hab⟩ := List.length_eq_two.1 hlen
        rw [hab] at hhead
        have ha : a = bearerWord := by simpa using hhead
        subst ha
        rw [hab] at hok
        have hgd : ([bearerWord, b] : List Str).getD 1 [] = b := rfl
        rw [hgd] at hok
        refine ⟨b, ?_, ?_, ?_⟩
        · have hj := joinSep_splitSep ' ' h
          rw [hab] at hj
          rw [← hj]
          rfl
        · have hbmem : b ∈ splitSep ' ' h := by rw [hab]; simp
          exact splitSep_sep_not_mem ' ' h b hbmem
        · cases hv : verifyJwt secret now b with
          | ok decoded =>
            rw [hv] at hok
            have hdp : decoded = p := by simpa using hok
            rw [hdp]
          | error e =>
            cases e with
            | expired =>
              rw [hv] at hok
              simp at hok
            | invalid =>
              rw [hv] at hok
              simp at hok
      · rw [if_neg hc] at hok
        exact absurd hok (by simp)
    · rintro ⟨t, rfl, ht, hv⟩
      rw [verifyToken_bearer ht, hv]

/-- Witness for C5: a concrete token round trip: accepted before expiry,
rejected at it, and a shapeless header rejected. -/
theorem verifyToken_cases_witness :
    verifyToken "secret0".toList 10
        (some (bearerHeader (signJwt "secret0".toList
          ⟨"cust-001".toList, "customer@example.com".toList, "John".toList,
            "Smith".toList⟩ 0 20))) =
      .ok ⟨"cust-001".toList, "customer@example.com".toList, "John".toList,
        "Smith".toList⟩ ∧
    verifyToken "secret0".toList 20
        (some (bearerHeader (signJwt "secret0".toList
          ⟨"cust-001".toList, "customer@example.com".toList, "John".toList,
            "Smith".toList⟩ 0 20))) =
      .error (unauthorizedResp "Token has expired") ∧
    verifyToken "secret0".toList 10 (some "garbage".toList) =
      .error (unauthorizedResp "Invalid authorization header format") :=
  ⟨(verifyToken_cases "secret0".toList 10).2.2.1 _ 0 20 (by decide)
      (by decide),
    (verifyToken_cases "secret0".toList 20).2.2.2.1 _ 0 20 (by decide)
      (by decide),
    (verifyToken_cases "secret0".toList 10).2.1 _ (by decide)⟩

/-! ## Verified properties of the booking routes -/

/-- C6 counterexample: with the upstream call failing (e.g. no API key),
`GET /bookings` does depend on which authenticated customer asks — the
second mock customer receives a different (empty) list from the first, so
the two-run independence claim is false as stated. -/
theorem listBookings_depends_on_customer_cex :
    listBookings none
        (customerPayload ⟨"cust-002".toList, "jane.doe@example.com".toList,
          "0411222333".toList, "Jane".toList, "Doe".toList⟩) ≠
      listBookings none
        (customerPayload ⟨"cust-001".toList, "customer@example.com".toList,
          "0400123456".toList, "John".toList, "Smith".toList⟩) := by
  intro h
  have hlen := congrArg List.length h
  simp [listBookings, getJobsByCustomerEmail, getMockJobsByEmail,
    getMockJobs, customerPayload, toLowerStr] at hlen

/-- C6 (amended): whenever the upstream call succeeds the booking list is
independent of the authenticated customer — the email filter parameter is
accepted but never restricts the result; only the mock fallback
discriminates, serving the full mock list to the demo email and the empty
list to every other customer. -/
theorem listBookings_upstream_independent (jobs : List Job)
    (u1 u2 : TokenPayload) :
    listBookings (some jobs) u1 = listBookings (some jobs) u2 ∧
    (toLowerStr u1.email = "customer@example.com".toList →
      listBookings none u1 = getMockJobs.map toBookingSummary) ∧
    (toLowerStr u1.email ≠ "customer@example.com".toList →
      listBookings none u1 = []) := by
  refine ⟨rfl, ?_, ?_⟩
  · intro h
    show (getMockJobsByEmail u1.email).map toBookingSummary = _
    rw [getMockJobsByEmail, if_pos h]
  · intro h
    show (getMockJobsByEmail u1.email).map toBookingSummary = _
    rw [getMockJobsByEmail, if_neg h]
    rfl

/-- Witness for C6 (amended): the demo customer gets the mock list, the
other mock customer gets the empty list. -/
theorem listBookings_upstream_independent_witness :
    listBookings none
        (customerPayload ⟨"cust-001".toList, "customer@example.com".toList,
          "0400123456".toList, "John".toList, "Smith".toList⟩) =
      getMockJobs.map toBookingSummary ∧
    listBookings none
        (customerPayload ⟨"cust-002".toList, "jane.doe@example.com".toList,
          "0411222333".toList, "Jane".toList, "Doe".toList⟩) = [] :=
  ⟨(listBookings_upstream_independent []
      (customerPayload ⟨"cust-001".toList, "customer@example.com".toList,
        "0400123456".toList, "John".toList, "Smith".toList⟩)
      (customerPayload ⟨"cust-001".toList, "customer@example.com".toList,
        "0400123456".toList, "John".toList, "Smith".toList⟩)).2.1 (by decide),
    (listBookings_upstream_independent []
      (customerPayload ⟨"cust-002".toList, "jane.doe@example.com".toList,
        "0411222333".toList, "Jane".toList, "Doe".toList⟩)
      (customerPayload ⟨"cust-002".toList, "jane.doe@example.com".toList,
        "0411222333".toList, "Jane".toList, "Doe".toList⟩)).2.2 (by decide)⟩

/-- C7: when neither upstream nor the fallback dataset knows a booking id,
`getJob` yields `null` and `GET /bookings/:id` answers 404 `Not Found`;
when upstream fails but the fallback contains the id, the booking is served
instead of an error. -/
theorem getBooking_notFound_and_fallback (id : Str) :
    (getMockJobById id = none →
      getJobById none id = none ∧
      getBookingById none id =
        .error ⟨404, "Not Found".toList, "Booking not found".toList⟩) ∧
    (∀ j : Job, getMockJobById id = some j →
      getBookingById none id = .ok (toBookingDetail j)) := by
  constructor
  · intro h
    have hj : getJobById none id = none := h
    refine ⟨hj, ?_⟩
    rw [getBookingById, hj]
  · intro j h
    have hj : getJobById none id = some j := h
    rw [getBookingById, hj]

/-- Witness for C7: an unknown id 404s; `job-001-uuid` is served from the
fallback with its detail fields. -/
theorem getBooking_notFound_and_fallback_witness :
    (getJobById none "no-such-job".toList = none ∧
      getBookingById none "no-such-job".toList =
        .error ⟨404, "Not Found".toList, "Booking not found".toList⟩) ∧
    getBookingById none "job-001-uuid".toList =
      .ok (toBookingDetail
        (mockJobDetails (getMockJobs.get ⟨0, by decide⟩))) :=
  ⟨(getBooking_notFound_and_fallback "no-such-job".toList).1 rfl,
    (getBooking_notFound_and_fallback "job-001-uuid".toList).2
      (mockJobDetails (getMockJobs.get ⟨0, by decide⟩)) rfl⟩

end Portal
